import Mathlib

/-!
# DeepScraper: verification of the deep-scrape orchestrator

A shallow embedding of the repository's API route (the `DeepScraper` class
and its helper functions) and proofs about the claims of the specification.

Strings are modelled as Lean `String`s (lists of characters); the score
arithmetic, done in JavaScript floating point, is modelled over `ℚ` with the
literal constants of the source (`0.0001`, `0.1`, `0.9`, `0.85`, `0.95`).
Host-runtime operations (the network, the external search / render / answer
collaborators, and `JSON.parse`) are modelled as an explicit environment
record passed to the orchestrator; everything else is translated from the
source line by line.
-/

/-! ## Basic character and string helpers (JS semantics) -/

/-- A JavaScript `\w` word character: ASCII letter, digit or underscore. -/
def wordChar (c : Char) : Bool := c.isAlphanum || c = '_'

/-- `String.toLowerCase()`. -/
def jsToLower (s : String) : String := ⟨s.data.map Char.toLower⟩

/-- Does `needle` occur contiguously inside `hay`? (JS `hay.includes(needle)`
on character lists: some suffix of `hay` starts with `needle`.) -/
def occursIn (needle : List Char) : List Char → Bool
  | [] => needle.isEmpty
  | c :: cs => needle.isPrefixOf (c :: cs) || occursIn needle cs

/-- `hay.includes(needle)`. -/
def jsIncludes (hay needle : String) : Bool := occursIn needle.data hay.data

/-- `s.substring(0, n)`. -/
def jsSubstring (s : String) (n : Nat) : String := ⟨s.data.take n⟩

/-- Whitespace-run collapsing for `replace(/\s+/g, ' ')`: the flag records
whether the previous character was whitespace. -/
def collapseWsAux : List Char → Bool → List Char
  | [], _ => []
  | c :: cs, prevWs =>
    if c.isWhitespace then
      if prevWs then collapseWsAux cs true else ' ' :: collapseWsAux cs true
    else c :: collapseWsAux cs false

/-- Leading-whitespace trim. -/
def trimWsL (l : List Char) : List Char := l.dropWhile (fun c => c.isWhitespace)

/-- `String.trim()` on a character list. -/
def jsTrimList (l : List Char) : List Char := trimWsL ((trimWsL l.reverse).reverse)

/-- `text.replace(/\s+/g, ' ').trim()` on a character list. -/
def normalizeWsList (l : List Char) : List Char := jsTrimList (collapseWsAux l false)

/-- Case-insensitive "starts with": both sides lowered character-wise. -/
def ciPrefix (pat l : List Char) : Bool :=
  (pat.map Char.toLower).isPrefixOf (l.map Char.toLower)

/-- Drop everything up to and including the first case-insensitive occurrence
of `pat`; `none` when `pat` does not occur. -/
def dropAfterCI (pat : List Char) : List Char → Option (List Char)
  | [] => none
  | c :: cs =>
    if ciPrefix pat (c :: cs) then some ((c :: cs).drop pat.length)
    else dropAfterCI pat cs

/-! ## Text/Markup utilities (lines 40-79 and 82-111 of the route file) -/

/-- The tag names of the stripping regex `<(script|style|noscript)[^>]*>`,
in the alternation's order. -/
def strippedTagNames : List (List Char) :=
  [['s','c','r','i','p','t'], ['s','t','y','l','e'],
   ['n','o','s','c','r','i','p','t']]

/-- Match `<(script|style|noscript)[^>]*>` at the head of `l` (the regex has
the `i` flag): on success, the tag name matched and the characters after the
closing `>`. -/
def openTagAt (l : List Char) : Option (List Char × List Char) :=
  match l with
  | '<' :: rest =>
    match strippedTagNames.find? (fun t => ciPrefix t rest) with
    | some t =>
      match (rest.drop t.length).dropWhile (fun c => c ≠ '>') with
      | [] => none
      | _ :: body => some (t, body)
    | none => none
  | _ => none

/-- `html.replace(/<(script|style|noscript)[^>]*>.*?<\/\1>/gis, '')`:
remove every block opened by one of the stripped tags up to its nearest
matching close tag; an open tag with no matching close tag is left in
place (the regex does not match there). -/
def stripBlocksFuel : Nat → List Char → List Char
  | _, [] => []
  | 0, l => l
  | fuel + 1, c :: cs =>
    match openTagAt (c :: cs) with
    | some (t, body) =>
      match dropAfterCI (['<', '/'] ++ t ++ ['>']) body with
      | some rest => stripBlocksFuel fuel rest
      | none => c :: stripBlocksFuel fuel cs
    | none => c :: stripBlocksFuel fuel cs

/-- The block stripper on a whole list: every recursive step consumes at
least one character, so the list's length is always enough fuel. -/
def stripBlocksAux (l : List Char) : List Char := stripBlocksFuel l.length l

/-- `cleanHtml.replace(/<[^>]*>/g, ' ')`: every `<`...`>` span becomes one
space; a `<` with no later `>` stays as text. -/
def stripTagsFuel : Nat → List Char → List Char
  | _, [] => []
  | 0, l => l
  | fuel + 1, c :: cs =>
    if c = '<' then
      match cs.dropWhile (fun x => x ≠ '>') with
      | [] => c :: stripTagsFuel fuel cs
      | _ :: rest => ' ' :: stripTagsFuel fuel rest
    else c :: stripTagsFuel fuel cs

/-- The tag stripper on a whole list: every recursive step consumes at least
one character, so the list's length is always enough fuel. -/
def stripTagsAux (l : List Char) : List Char := stripTagsFuel l.length l

/-- Lines 85-90: the whitespace-normalized visible text of a markup string
(scripts, styles and noscript blocks removed, then all tags replaced by
spaces, whitespace collapsed, ends trimmed). -/
def visibleText (html : String) : String :=
  ⟨normalizeWsList (stripTagsAux (stripBlocksAux html.data))⟩

/-- Line 93: `query.toLowerCase().match(/\b\w{2,}\b/g) || []` — the maximal
runs of word characters, keeping those of length at least 2.  `cur` holds the
current run reversed. -/
def queryTokensAux : List Char → List Char → List (List Char)
  | [], cur => if 2 ≤ cur.length then [cur.reverse] else []
  | c :: cs, cur =>
    if wordChar c then queryTokensAux cs (c :: cur)
    else (if 2 ≤ cur.length then [cur.reverse] else []) ++ queryTokensAux cs []

/-- The Relevance Analyzer's tokenization of a query. -/
def queryTokens (query : String) : List String :=
  (queryTokensAux (jsToLower query).data []).map (fun l => ⟨l⟩)

/-- Lines 40-43: `cleanText(text, maxLen)` — collapse whitespace, trim, and
truncate with an ellipsis marker beyond `maxLen` characters. -/
def cleanText (text : String) (maxLen : Nat := 800) : String :=
  let cleaned : String := ⟨normalizeWsList text.data⟩
  if maxLen < cleaned.length then ⟨cleaned.data.take maxLen⟩ ++ "..." else cleaned

/-- An accepted analysis: the snippet and its relevance score
(`{ snippet, score }` of the source). -/
structure AnalysisResult where
  snippet : String
  score : ℚ
deriving Repr, DecidableEq

/-- Line 98: the query tokens found as substrings of the lowercased visible
text. -/
def matchedTokens (html query : String) : List String :=
  (queryTokens query).filter fun w => jsIncludes (jsToLower (visibleText html)) w

/-- Lines 98-99: `matches / (queryWords.length + 0.0001)`, the relevance
score the analyzer computes for a query with at least one token. -/
def analyzerScore (html query : String) : ℚ :=
  ((matchedTokens html query).length : ℚ) / (((queryTokens query).length : ℚ) + 1 / 10000)

/-- Lines 82-111: `analyzeHtmlForQuery(html, url, query)`.  The `url`
argument is unused by the source as well.  Zero query tokens short-circuit
to score `1.0` with the first 1500 characters (lines 94-96); otherwise the
computed score is compared against the `0.1` floor (line 101). -/
def analyzeHtmlForQuery (html : String) (_url : String) (query : String) :
    Option AnalysisResult :=
  if queryTokens query = [] then some ⟨jsSubstring (visibleText html) 1500, 1⟩
  else if analyzerScore html query < 1 / 10 then none
  else some ⟨visibleText html, analyzerScore html query⟩

/-! ## Claims C2 and C6: the Relevance Analyzer -/

theorem analyzerScore_nonneg (html query : String) : 0 ≤ analyzerScore html query := by
  unfold analyzerScore
  positivity

theorem analyzerScore_le_one (html query : String) : analyzerScore html query ≤ 1 := by
  unfold analyzerScore
  have hmle : (matchedTokens html query).length ≤ (queryTokens query).length :=
    List.length_filter_le _ _
  have hpos : (0 : ℚ) < ((queryTokens query).length : ℚ) + 1 / 10000 := by positivity
  rw [div_le_one hpos]
  have hcast : ((matchedTokens html query).length : ℚ) ≤ ((queryTokens query).length : ℚ) := by
    exact_mod_cast hmle
  linarith

/-- C2.  The Relevance Analyzer's score is always in `[0, 1]`, and whenever
the score it computes for a tokenizable query (lines 98-99) is below the
`0.1` floor it returns `null` (line 101). -/
theorem analyzer_score_bounds (html url query : String) :
    (∀ r, analyzeHtmlForQuery html url query = some r → 0 ≤ r.score ∧ r.score ≤ 1) ∧
      (queryTokens query ≠ [] → analyzerScore html query < 1 / 10 →
        analyzeHtmlForQuery html url query = none) := by
  constructor
  · intro r h
    unfold analyzeHtmlForQuery at h
    split at h
    · cases h
      constructor
      · norm_num
      · norm_num
    · split at h
      · cases h
      next hlow =>
        cases h
        exact ⟨analyzerScore_nonneg html query, analyzerScore_le_one html query⟩
  · intro hne hlow
    unfold analyzeHtmlForQuery
    rw [if_neg hne, if_pos hlow]

/-- C6.  For a query whose tokenization yields no tokens, the analyzer
returns score `1.0` and the first 1500 characters of the normalized visible
text, whatever the markup (lines 94-96); that snippet is at most 1500
characters long. -/
theorem zero_token_query_fallback (html url query : String)
    (h : queryTokens query = []) :
    analyzeHtmlForQuery html url query =
        some ⟨jsSubstring (visibleText html) 1500, 1⟩ ∧
      (jsSubstring (visibleText html) 1500).length ≤ 1500 := by
  constructor
  · unfold analyzeHtmlForQuery
    rw [if_pos h]
  · show ((visibleText html).data.take 1500).length ≤ 1500
    rw [List.length_take]
    exact min_le_left _ _

/-- C6's witness input: the query `a !` has no token of length two or more,
so on the markup `<b>hi</b>` the analyzer returns the visible text with
score `1.0`. -/
theorem zero_token_query_fallback_witness :
    analyzeHtmlForQuery "<b>hi</b>" "u" "a !" =
        some ⟨jsSubstring (visibleText "<b>hi</b>") 1500, 1⟩ ∧
      (jsSubstring (visibleText "<b>hi</b>") 1500).length ≤ 1500 :=
  zero_token_query_fallback "<b>hi</b>" "u" "a !" (by decide)

/-! ## URL parsing and Link Discovery (lines 264-300)

`new URL(...)` of the host runtime is modelled for the common
`scheme://authority/path` shape the crawler feeds it: anything else is a
parse failure (`new URL` throwing), which line 295's `catch` turns into a
skip. -/

/-- A character allowed in a URL scheme after the first letter. -/
def schemeChar (c : Char) : Bool := c.isAlphanum || c = '+' || c = '-' || c = '.'

/-- Split an absolute URL into scheme and authority: `none` models `new URL`
throwing.  The authority runs to the first `/`, `?` or `#` and must be
non-empty. -/
def parseSchemeAuthority (url : String) : Option (List Char × List Char) :=
  let l := url.data
  let scheme := l.takeWhile (fun c => c ≠ ':')
  let rest := l.drop scheme.length
  if scheme = [] then none
  else if ¬ (scheme.headD ' ').isAlpha then none
  else if ¬ scheme.all schemeChar then none
  else if ¬ [':', '/', '/'].isPrefixOf rest then none
  else
    let authority := (rest.drop 3).takeWhile (fun c => c ≠ '/' && c ≠ '?' && c ≠ '#')
    if authority = [] then none else some (scheme, authority)

/-- `new URL(u).hostname`: the authority after the last `@`, before the port
colon, lowercased; `none` models `new URL` throwing. -/
def parseHost (url : String) : Option String :=
  match parseSchemeAuthority url with
  | none => none
  | some (_, authority) =>
    let host := ((authority.reverse.takeWhile (fun c => c ≠ '@')).reverse).takeWhile
      (fun c => c ≠ ':')
    if host = [] then none else some ⟨host.map Char.toLower⟩

/-- Lines 281-287: resolve a discovered `href` exactly as the crawler does —
`/`-prefixed hrefs against the base URL's scheme and authority (protocol-
relative `//` hrefs against its scheme alone), hrefs starting `http` kept
as written, everything else skipped. -/
def resolveHref (scheme authority : List Char) (href : String) : Option String :=
  if href.startsWith "/" then
    some (if href.startsWith "//" then (⟨scheme⟩ : String) ++ ":" ++ href
          else (⟨scheme⟩ : String) ++ "://" ++ (⟨authority⟩ : String) ++ href)
  else if href.startsWith "http" then some href
  else none

/-- Extract the `href` value of an anchor-tag match, as the regex
`href=["']([^"']*?)["']` does: the characters after `href=` and a quote, up
to the next quote of either kind (no closing quote, no match). -/
def hrefIn (inside : List Char) : Option (List Char) :=
  match dropAfterCI ['h', 'r', 'e', 'f', '='] inside with
  | none => none
  | some rest =>
    match rest with
    | [] => none
    | q :: rest' =>
      if q = '"' ∨ q = '\'' then
        let v := rest'.takeWhile (fun c => c ≠ '"' && c ≠ '\'')
        if rest'.drop v.length = [] then none else some v
      else none

/-- Line 271: scan for `<a[^>]*href=["']([^"']*?)["'][^>]*>` matches (the
regex has the `i` flag) and collect the captured href values in order. -/
def extractAnchorHrefsFuel : Nat → List Char → List (List Char)
  | _, [] => []
  | 0, _ => []
  | fuel + 1, c :: cs =>
    if ciPrefix ['<', 'a'] (c :: cs) then
      match cs.dropWhile (fun x => x ≠ '>') with
      | [] => extractAnchorHrefsFuel fuel cs
      | _ :: after =>
        match hrefIn (cs.takeWhile (fun x => x ≠ '>')) with
        | some v => v :: extractAnchorHrefsFuel fuel after
        | none => extractAnchorHrefsFuel fuel cs
    else extractAnchorHrefsFuel fuel cs

/-- The anchor scan on a whole list: every recursive step consumes at least
one character, so the list's length is always enough fuel. -/
def extractAnchorHrefsAux (l : List Char) : List (List Char) :=
  extractAnchorHrefsFuel l.length l

/-- The href values of a markup string's anchor tags, as strings. -/
def extractAnchorHrefs (html : String) : List String :=
  (extractAnchorHrefsAux html.data).map (fun l => ⟨l⟩)

/-- Lines 274-298: the collection loop.  Each href is resolved, parsed, kept
when its host equals the base host and it is not yet visited, and the scan
stops as soon as six links are collected; hrefs that fail to resolve or
parse are skipped (`continue`). -/
def collectLoop (scheme authority : List Char) (baseDomain : String)
    (visited : List String) : List String → List String → List String
  | [], acc => acc
  | href :: hrefs, acc =>
    match resolveHref scheme authority href with
    | none => collectLoop scheme authority baseDomain visited hrefs acc
    | some fullUrl =>
      match parseHost fullUrl with
      | none => collectLoop scheme authority baseDomain visited hrefs acc
      | some linkDomain =>
        if linkDomain = baseDomain ∧ fullUrl ∉ visited then
          if 6 ≤ (acc ++ [fullUrl]).length then acc ++ [fullUrl]
          else collectLoop scheme authority baseDomain visited hrefs (acc ++ [fullUrl])
        else collectLoop scheme authority baseDomain visited hrefs acc

/-- Lines 270-298: Link Discovery — the internal links the crawler collects
from a page's markup, given the visited set at discovery time. -/
def internalLinksOf (visited : List String) (baseUrl html : String) : List String :=
  match parseSchemeAuthority baseUrl, parseHost baseUrl with
  | some (scheme, authority), some baseDomain =>
    collectLoop scheme authority baseDomain visited (extractAnchorHrefs html) []
  | _, _ => []

/-! ## Claim C7: Link Discovery bounds -/

theorem collectLoop_length_le (scheme authority : List Char) (baseDomain : String)
    (visited : List String) :
    ∀ hrefs acc, acc.length < 6 →
      (collectLoop scheme authority baseDomain visited hrefs acc).length ≤ 6 := by
  intro hrefs
  induction hrefs with
  | nil => intro acc hacc; unfold collectLoop; omega
  | cons href rest ih =>
    intro acc hacc
    unfold collectLoop
    split
    · exact ih acc hacc
    · split
      · exact ih acc hacc
      · split
        · split
          next hfull =>
            simp only [List.length_append, List.length_cons, List.length_nil] at hfull ⊢
            omega
          next hfull =>
            apply ih
            simp only [List.length_append, List.length_cons, List.length_nil] at hfull ⊢
            omega
        · exact ih acc hacc

theorem collectLoop_mem (scheme authority : List Char) (baseDomain : String)
    (visited : List String) :
    ∀ hrefs acc l, l ∈ collectLoop scheme authority baseDomain visited hrefs acc →
      l ∈ acc ∨ (parseHost l = some baseDomain ∧ l ∉ visited) := by
  intro hrefs
  induction hrefs with
  | nil => intro acc l hl; unfold collectLoop at hl; exact Or.inl hl
  | cons href rest ih =>
    intro acc l hl
    unfold collectLoop at hl
    split at hl
    · exact ih acc l hl
    · split at hl
      · exact ih acc l hl
      next fullUrl linkDomain hparse =>
        split at hl
        next hkeep =>
          split at hl
          · rcases List.mem_append.mp hl with h | h
            · exact Or.inl h
            · rcases List.mem_singleton.mp h with rfl
              exact Or.inr ⟨by rw [hparse, hkeep.1], hkeep.2⟩
          · rcases ih _ l hl with h | h
            · rcases List.mem_append.mp h with h' | h'
              · exact Or.inl h'
              · rcases List.mem_singleton.mp h' with rfl
                exact Or.inr ⟨by rw [hparse, hkeep.1], hkeep.2⟩
            · exact Or.inr h
        · exact ih acc l hl

/-- C7.  Link Discovery returns at most six links; every returned link
parses to exactly the base URL's host and is outside the visited set at
discovery time.  Malformed hrefs are skipped by construction: the resolver
and parser return `none` for them and the loop continues (`continue` at
lines 286 and 296), so they never abort discovery nor appear in the
result. -/
theorem link_discovery_bounds (visited : List String) (baseUrl html : String) :
    (internalLinksOf visited baseUrl html).length ≤ 6 ∧
      ∀ l ∈ internalLinksOf visited baseUrl html,
        ∃ d, parseHost baseUrl = some d ∧ parseHost l = some d ∧ l ∉ visited := by
  unfold internalLinksOf
  split
  next scheme authority baseDomain heq₁ heq₂ =>
    constructor
    · exact collectLoop_length_le scheme authority baseDomain visited _ [] (by simp)
    · intro l hl
      rcases collectLoop_mem scheme authority baseDomain visited _ [] l hl with h | h
      · cases h
      · exact ⟨baseDomain, heq₂, h.1, h.2⟩
  · simp

/-! ## The orchestrator's state and environment

One orchestration run owns a visited set and a debug trace (`this.visited`,
`debug.steps`, `debug.search_results`); the embedding also records an event
log of the externally observable actions — a request to the direct-fetch
network, a request to the render collaborator, an invocation of the
Relevance Analyzer, the search and synthesizer calls, and the selection of a
URL for trial (the moment `this.visited.add` runs). -/

/-- The externally observable actions of a run. -/
inductive Event where
  | searchCall : Event
  | select (url : String) : Event
  | httpCall (url : String) : Event
  | renderCall (url : String) : Event
  | analyzeCall (url : String) (markup : String) : Event
  | synthCall : Event
deriving Repr, DecidableEq

/-- The mutable state of one run: `this.visited`, `debug.steps`,
`debug.search_results`, plus the event log. -/
structure RunState where
  visited : List String
  steps : List String
  searchResults : List String
  events : List Event
deriving Repr, DecidableEq

/-- The state a run starts from (`new DeepScraper()` with a fresh `debug`). -/
def initState : RunState := ⟨[], [], [], []⟩

/-- `debug.steps.push(s)`. -/
def pushStep (s : String) (st : RunState) : RunState :=
  { st with steps := st.steps ++ [s] }

/-- Record an observable action. -/
def emitEvent (e : Event) (st : RunState) : RunState :=
  { st with events := st.events ++ [e] }

/-- `this.visited.add(u)` at the moment `u` is selected for trial: the URL
joins the visited set and a `select` event is logged. -/
def markVisited (u : String) (st : RunState) : RunState :=
  { st with visited := st.visited ++ [u], events := st.events ++ [Event.select u] }

/-- What one `fetch` of the host runtime does: throw (timeout abort,
DNS/network error) with a message, or answer with `response.ok`, a status
and a body. -/
inductive HttpResult where
  | err (msg : String) : HttpResult
  | resp (ok : Bool) (status : Nat) (body : String) : HttpResult

/-- The search collaborator's answer: throw, or answer with `response.ok`,
a status and the candidate links `searchData.items?.map(item => item.link)`. -/
inductive SearchResult where
  | err (msg : String) : SearchResult
  | resp (ok : Bool) (status : Nat) (items : List String) : SearchResult

/-- The answer synthesizer's outcome: a thrown or non-ok failure with a
message, or a successful response whose `choices[0]?.message?.content` is
`content`. -/
inductive SynthResult where
  | err (msg : String) : SynthResult
  | ok (content : Option String) : SynthResult

/-- The external world of one run.  The three `... Texts/Vals` fields model
the host-runtime regex captures plus `JSON.parse`/`JSON.stringify` of
`extractJsonLd` (lines 54-71), the data-attribute scan (line 214) and the
window-variable scan (lines 226-253): for a given markup they list, in
document order, the serialized JSON-LD blocks that parse, the captured
data-attribute values, and the captured window-variable objects that
parse. -/
structure Env where
  search : SearchResult
  http : String → HttpResult
  render : String → HttpResult
  jsonLdTexts : String → List String
  dataAttrVals : String → List String
  windowVarTexts : String → List String
  synth : String → String → SynthResult

/-- JS truthiness of a nullable string: `null` and the empty string are
falsy. -/
def jsTruthy : Option String → Bool
  | none => false
  | some s => s ≠ ""

/-- JS `a || b` on nullable strings. -/
def jsOr (a b : Option String) : Option String := if jsTruthy a then a else b

/-! ## Fetch strategies (lines 141-192) -/

/-- Lines 141-165: `fetchHtmlRequests(url, debug)`, the direct-fetch
strategy.  A thrown error (timeout abort, DNS) is caught and traced; a
non-2xx response falls through to `return null` with no further trace
entry. -/
def fetchHtmlRequests (env : Env) (url : String) (st : RunState) :
    Option String × RunState :=
  let st := pushStep ("Fetching " ++ url ++ " via fast HTTP request") st
  let st := emitEvent (Event.httpCall url) st
  match env.http url with
  | HttpResult.err msg =>
    (none, pushStep ("Fast fetch failed for " ++ url ++ ": " ++ msg) st)
  | HttpResult.resp ok _ body =>
    if ok then
      (some body,
        pushStep ("Successfully fetched " ++ url ++ " (" ++ toString body.length
          ++ " chars)") st)
    else (none, st)

/-- Lines 167-192: `fetchHtmlWithScraper(url, debug)`, the rendered-fetch
strategy via the render collaborator; every failure is traced and yields
`null`. -/
def fetchHtmlWithScraper (env : Env) (url : String) (st : RunState) :
    Option String × RunState :=
  let st := pushStep ("Scraping " ++ url ++ " with web scraper (JS rendering)") st
  let st := emitEvent (Event.renderCall url) st
  match env.render url with
  | HttpResult.err msg =>
    (none, pushStep ("Scraper error for " ++ url ++ ": " ++ msg) st)
  | HttpResult.resp ok status body =>
    if ok then
      (some body,
        pushStep ("Successfully scraped " ++ url ++ " with JS rendering ("
          ++ toString body.length ++ " chars)") st)
    else (none, pushStep ("Web scraper failed for " ++ url ++ ": " ++ toString status) st)

/-! ## Claim C4: direct-fetch failure modes -/

/-- An environment whose direct fetch always answers 404 and whose other
collaborators are unreachable. -/
def envNon2xx : Env where
  search := SearchResult.resp true 200 []
  http := fun _ => HttpResult.resp false 404 ""
  render := fun _ => HttpResult.err "off"
  jsonLdTexts := fun _ => []
  dataAttrVals := fun _ => []
  windowVarTexts := fun _ => []
  synth := fun _ _ => SynthResult.err "off"

/-- C4's counterexample: on a non-2xx response (here a 404), the direct-fetch
strategy returns `null` but the only trace entry of the call is the
pre-fetch attempt entry — no entry describing the failure is appended
(lines 155-164 fall through to `return null`), contradicting the claim that
every failure mode appends a failure trace entry. -/
theorem direct_fetch_silent_non2xx_cex :
    (fetchHtmlRequests envNon2xx "http://x/" initState).1 = none ∧
      (fetchHtmlRequests envNon2xx "http://x/" initState).2.steps =
        ["Fetching http://x/ via fast HTTP request"] := by
  constructor
  · rfl
  · rfl

/-- C4 as amended.  The direct-fetch strategy never throws (it is a total
function into `Option`): a thrown network/timeout error is caught, traced
with a failure entry, and becomes `null`; a non-2xx response becomes `null`
with no failure entry beyond the pre-fetch attempt entry; a 2xx response
returns the body. -/
theorem direct_fetch_failure_modes (env : Env) (url msg : String) (status : Nat)
    (body : String) (st : RunState) :
    (env.http url = HttpResult.err msg →
        (fetchHtmlRequests env url st).1 = none ∧
        (fetchHtmlRequests env url st).2.steps =
          st.steps ++ ["Fetching " ++ url ++ " via fast HTTP request",
            "Fast fetch failed for " ++ url ++ ": " ++ msg]) ∧
      (env.http url = HttpResult.resp false status body →
        (fetchHtmlRequests env url st).1 = none ∧
        (fetchHtmlRequests env url st).2.steps =
          st.steps ++ ["Fetching " ++ url ++ " via fast HTTP request"]) ∧
      (env.http url = HttpResult.resp true status body →
        (fetchHtmlRequests env url st).1 = some body) := by
  refine ⟨?_, ?_, ?_⟩
  · intro h
    unfold fetchHtmlRequests
    rw [h]
    exact ⟨rfl, by simp [pushStep, emitEvent]⟩
  · intro h
    unfold fetchHtmlRequests
    rw [h]
    exact ⟨rfl, by simp [pushStep, emitEvent]⟩
  · intro h
    unfold fetchHtmlRequests
    rw [h]
    rfl

/-! ## Embedded-state inspection (lines 194-262) -/

/-- `split(' ')` on a character list: split at every single space, keeping
empty fragments, as JavaScript does.  `cur` holds the current fragment
reversed. -/
def splitOnSpaceAux : List Char → List Char → List String
  | [], cur => [⟨cur.reverse⟩]
  | c :: cs, cur =>
    if c = ' ' then (⟨cur.reverse⟩ : String) :: splitOnSpaceAux cs []
    else splitOnSpaceAux cs (c :: cur)

/-- Line 207: the sub-probes' word list — the raw query lowercased and split
on single spaces, with no length or word-character filter. -/
def jsQueryWords (query : String) : List String :=
  splitOnSpaceAux (jsToLower query).data []

/-- Lines 207, 218, 245: does any sub-probe word occur in `text`
(`.some(word => text.toLowerCase().includes(word))`)? -/
def looseMatch (query text : String) : Bool :=
  (jsQueryWords query).any fun w => jsIncludes (jsToLower text) w

/-- Lines 205-211: the first serialized JSON-LD block containing a sub-probe
word. -/
def jsonLdFind (query : String) (texts : List String) : Option String :=
  texts.find? fun t => looseMatch query t

/-- Lines 214-223: the first captured data-attribute value that is truthy
and either contains a sub-probe word or matches `/\$?\d/` (has a digit). -/
def dataAttrFind (query : String) (vals : List String) : Option String :=
  vals.find? fun v => v ≠ "" && (looseMatch query v || v.data.any Char.isDigit)

/-- Lines 226-253: the first parsed window-variable object containing a
sub-probe word. -/
def windowVarFind (query : String) (texts : List String) : Option String :=
  texts.find? fun t => looseMatch query t

/-- Lines 194-262: `extractFromJsRuntime(url, query, debug)` — re-run the
rendered fetch (line 200, unconditionally: nothing is reused from any
earlier rendered fetch), then try the JSON-LD probe (score 0.9), the
data-attribute probe (score 0.85) and the window-variable probe
(score 0.95) in order. -/
def extractFromJsRuntime (env : Env) (url query : String) (st : RunState) :
    Option AnalysisResult × RunState :=
  match fetchHtmlWithScraper env url (pushStep ("Inspecting runtime data for " ++ url) st) with
  | (html?, st) =>
    match html? with
    | none => (none, st)
    | some html =>
      if html = "" then (none, st)
      else
        match jsonLdFind query (env.jsonLdTexts html) with
        | some t =>
          (some ⟨cleanText t 1200, 9 / 10⟩,
            pushStep ("Found relevant JSON-LD data in " ++ url) st)
        | none =>
          match dataAttrFind query (env.dataAttrVals html) with
          | some v =>
            (some ⟨cleanText v 400, 85 / 100⟩,
              pushStep ("Found relevant data attribute in " ++ url ++ ": " ++ v) st)
          | none =>
            match windowVarFind query (env.windowVarTexts html) with
            | some t =>
              (some ⟨cleanText t 1200, 95 / 100⟩,
                pushStep ("Found relevant window variable data in " ++ url) st)
            | none => (none, st)

/-- Lines 456-492: `generateAIAnswer(query, context, debug)` — one call to
the answer synthesizer; a thrown or non-ok failure and a falsy content both
degrade to `null`. -/
def generateAIAnswer (env : Env) (query context : String) (st : RunState) :
    Option String × RunState :=
  let st := pushStep "Generating AI analysis of extracted content..." st
  let st := emitEvent Event.synthCall st
  match env.synth query context with
  | SynthResult.err msg => (none, pushStep ("AI analysis failed: " ++ msg) st)
  | SynthResult.ok content =>
    match content with
    | some a =>
      if a = "" then (none, pushStep "AI analysis returned empty result" st)
      else (some a, pushStep "AI analysis completed successfully" st)
    | none => (none, pushStep "AI analysis returned empty result" st)

/-! ## Claim C8 (amended part): embedded-state inspection always re-fetches -/

theorem fetchHtmlWithScraper_events (env : Env) (url : String) (st : RunState) :
    (fetchHtmlWithScraper env url st).2.events = st.events ++ [Event.renderCall url] := by
  unfold fetchHtmlWithScraper
  match env.render url with
  | HttpResult.err msg => simp [pushStep, emitEvent]
  | HttpResult.resp ok status body =>
    cases ok <;> simp [pushStep, emitEvent]

theorem fetchHtmlRequests_events (env : Env) (url : String) (st : RunState) :
    (fetchHtmlRequests env url st).2.events = st.events ++ [Event.httpCall url] := by
  unfold fetchHtmlRequests
  match env.http url with
  | HttpResult.err msg => simp [pushStep, emitEvent]
  | HttpResult.resp ok status body =>
    cases ok <;> simp [pushStep, emitEvent]

theorem generateAIAnswer_events (env : Env) (query context : String) (st : RunState) :
    (generateAIAnswer env query context st).2.events = st.events ++ [Event.synthCall] := by
  unfold generateAIAnswer
  match env.synth query context with
  | SynthResult.err msg => simp [pushStep, emitEvent]
  | SynthResult.ok content =>
    match content with
    | some a =>
      by_cases ha : a = "" <;> simp [ha, pushStep, emitEvent]
    | none => simp [pushStep, emitEvent]

/-- C8 as amended.  Embedded-state inspection issues its own rendered-fetch
request for the URL on every invocation — exactly one render-collaborator
request is logged, whatever rendered markup the caller already obtained in
step (c); no markup is cached or reused across strategies. -/
theorem embedded_state_always_refetches (env : Env) (url query : String) (st : RunState) :
    (extractFromJsRuntime env url query st).2.events =
      st.events ++ [Event.renderCall url] := by
  unfold extractFromJsRuntime
  rcases hf : fetchHtmlWithScraper env url (pushStep ("Inspecting runtime data for " ++ url) st)
    with ⟨html?, st'⟩
  have hev : st'.events = st.events ++ [Event.renderCall url] := by
    have h := fetchHtmlWithScraper_events env url
      (pushStep ("Inspecting runtime data for " ++ url) st)
    rw [hf] at h
    simpa [pushStep] using h
  cases html? with
  | none => simpa using hev
  | some html =>
    by_cases hh : html = ""
    · subst hh
      simpa using hev
    · simp only [if_neg hh]
      cases hj : jsonLdFind query (env.jsonLdTexts html) with
      | some t => simpa [pushStep] using hev
      | none =>
        cases hd : dataAttrFind query (env.dataAttrVals html) with
        | some v => simpa [pushStep] using hev
        | none =>
          cases hw : windowVarFind query (env.windowVarTexts html) with
          | some t => simpa [pushStep] using hev
          | none => simpa using hev

/-! ## Claim C9: the sub-probes' loose word matching -/

theorem occursIn_nil (l : List Char) : occursIn [] l = true := by
  cases l <;> simp [occursIn, List.isPrefixOf]

theorem jsIncludes_empty (hay : String) : jsIncludes hay "" = true := by
  unfold jsIncludes
  exact occursIn_nil hay.data

theorem looseMatch_of_empty_word (query text : String)
    (hq : "" ∈ jsQueryWords query) : looseMatch query text = true := by
  unfold looseMatch
  rw [List.any_eq_true]
  exact ⟨"", hq, jsIncludes_empty (jsToLower text)⟩

theorem fetchHtmlWithScraper_result (env : Env) (url : String) (st : RunState)
    (status : Nat) (body : String)
    (h : env.render url = HttpResult.resp true status body) :
    (fetchHtmlWithScraper env url st).1 = some body := by
  unfold fetchHtmlWithScraper
  rw [h]
  simp

/-- C9.  The embedded-state sub-probes split the raw query on single spaces
with no minimum-length or word-character filter, so a query with two
consecutive spaces contributes the empty fragment, which every string
contains: for such a query, whenever the rendered fetch returns markup with
at least one successfully parsed JSON-LD block, the JSON-LD probe accepts
the first block with score 0.9 regardless of its content.  By contrast, the
analyzer's tokenization drops both the empty fragment and one-character
words: on `a  b` the probe words include `""` (and on `a b` they include
`"a"`) while the analyzer sees no token at all. -/
theorem loose_split_probe_acceptance (env : Env) (url query : String)
    (st : RunState) (status : Nat) (html : String)
    (hq : "" ∈ jsQueryWords query)
    (hr : env.render url = HttpResult.resp true status html)
    (hh : html ≠ "")
    (ht : env.jsonLdTexts html ≠ []) :
    (∃ t, (env.jsonLdTexts html).head? = some t ∧
        (extractFromJsRuntime env url query st).1 = some ⟨cleanText t 1200, 9 / 10⟩) ∧
      ("" ∈ jsQueryWords "a  b" ∧ queryTokens "a  b" = []) ∧
      ("a" ∈ jsQueryWords "a b" ∧ queryTokens "a b" = []) := by
  refine ⟨?_, ⟨by decide, by decide⟩, ⟨by decide, by decide⟩⟩
  rcases hne : env.jsonLdTexts html with _ | ⟨t0, ts⟩
  · exact absurd hne ht
  · refine ⟨t0, rfl, ?_⟩
    unfold extractFromJsRuntime
    rcases hf : fetchHtmlWithScraper env url
        (pushStep ("Inspecting runtime data for " ++ url) st) with ⟨html?, st'⟩
    have h1 : html? = some html := by
      have h2 := fetchHtmlWithScraper_result env url
        (pushStep ("Inspecting runtime data for " ++ url) st) status html hr
      rw [hf] at h2
      exact h2
    subst h1
    have hfind : jsonLdFind query (env.jsonLdTexts html) = some t0 := by
      rw [hne]
      unfold jsonLdFind
      exact List.find?_cons_of_pos _ (looseMatch_of_empty_word query t0 hq)
    simp only [if_neg hh, hfind]

/-- An environment whose render collaborator returns the markup `<x>`, whose
JSON-LD oracle parses one block `[1]`, and whose other collaborators fail. -/
def envC9 : Env where
  search := SearchResult.resp true 200 []
  http := fun _ => HttpResult.err "off"
  render := fun _ => HttpResult.resp true 200 "<x>"
  jsonLdTexts := fun _ => ["[1]"]
  dataAttrVals := fun _ => []
  windowVarTexts := fun _ => []
  synth := fun _ _ => SynthResult.err "off"

/-- C9's witness input: the query `a  b` (two consecutive spaces) makes the
JSON-LD probe accept the parsed block `[1]` — which shares no word with the
query — with score 0.9. -/
theorem loose_split_probe_acceptance_witness :
    (∃ t, (envC9.jsonLdTexts "<x>").head? = some t ∧
        (extractFromJsRuntime envC9 "http://a/" "a  b" initState).1 =
          some ⟨cleanText t 1200, 9 / 10⟩) ∧
      ("" ∈ jsQueryWords "a  b" ∧ queryTokens "a  b" = []) ∧
      ("a" ∈ jsQueryWords "a b" ∧ queryTokens "a b" = []) :=
  loose_split_probe_acceptance envC9 "http://a/" "a  b" initState 200 "<x>"
    (by decide) rfl (by decide) (by decide)

/-! ## The Crawl Orchestrator (lines 119-139, 264-340, 342-454) -/

/-- Line 6. -/
def MAX_SEARCH_RESULTS : Nat := 8

/-- Line 7. -/
def MAX_CRAWL_DEPTH : Nat := 2

/-- Lines 119-139: `performSearch(query, debug)` — ask the search
collaborator, treat a thrown error or a non-ok response as zero results, and
cap the candidate list at `MAX_SEARCH_RESULTS`. -/
def performSearch (env : Env) (st : RunState) : List String × RunState :=
  match emitEvent Event.searchCall (pushStep "Searching Google for relevant URLs..." st) with
  | st =>
    match env.search with
    | SearchResult.err msg => ([], pushStep ("Search error: " ++ msg) st)
    | SearchResult.resp ok status items =>
      if ok then
        ((items.take MAX_SEARCH_RESULTS),
          pushStep ("Found " ++ toString (items.take MAX_SEARCH_RESULTS).length
            ++ " search results") st)
      else ([], pushStep ("Google search failed: " ++ toString status) st)

/-- The candidate URLs one run will iterate over, as `performSearch`
computes them. -/
def searchCandidates (env : Env) : List String :=
  match env.search with
  | SearchResult.err _ => []
  | SearchResult.resp ok _ items => if ok then items.take MAX_SEARCH_RESULTS else []

theorem performSearch_fst (env : Env) (st : RunState) :
    (performSearch env st).1 = searchCandidates env := by
  unfold performSearch searchCandidates
  match env.search with
  | SearchResult.err msg => rfl
  | SearchResult.resp ok status items => cases ok <;> simp

/-- The repeated per-strategy guard of the orchestrator (lines 369-371,
390-392, 309-311, 319-321): run the Relevance Analyzer only when the fetched
markup is truthy (non-null, non-empty); a falsy markup means the strategy
failed and contributes no analysis. -/
def analyzeIfTruthy (url query : String) (html? : Option String) (st : RunState) :
    Option AnalysisResult × RunState :=
  match html? with
  | some h =>
    if h = "" then (none, st)
    else (analyzeHtmlForQuery h url query, emitEvent (Event.analyzeCall url h) st)
  | none => (none, st)

/-- Lines 303-333: the body of the internal-link trial loop for one
discovered link — fast fetch then analyze, rendered fetch then analyze,
runtime inspection; the analyzer only runs on truthy (non-null, non-empty)
markup. -/
def tryInternalUrl (env : Env) (query internalUrl : String) (st : RunState) :
    Option (AnalysisResult × String) × RunState :=
  match fetchHtmlRequests env internalUrl st with
  | (fastHtml, st) =>
    match analyzeIfTruthy internalUrl query fastHtml st with
    | (some analysis, st) =>
      (some (analysis, internalUrl),
        pushStep ("Found relevant content in internal link: " ++ internalUrl) st)
    | (none, st) =>
      match fetchHtmlWithScraper env internalUrl st with
      | (scrapedHtml, st) =>
        match analyzeIfTruthy internalUrl query scrapedHtml st with
        | (some analysis, st) =>
          (some (analysis, internalUrl),
            pushStep ("Found relevant content via scraper in internal link: "
              ++ internalUrl) st)
        | (none, st) =>
          match extractFromJsRuntime env internalUrl query st with
          | (some runtimeResult, st) =>
            (some (runtimeResult, internalUrl),
              pushStep ("Found relevant runtime data in internal link: "
                ++ internalUrl) st)
          | (none, st) => (none, st)

/-- Lines 303-333: the internal-link trial loop — skip already-visited
links, mark each trialed link visited on selection, stop at the first
acceptance. -/
def crawlLoop (env : Env) (query : String) :
    List String → RunState → Option (AnalysisResult × String) × RunState
  | [], st => (none, st)
  | internalUrl :: rest, st =>
    if internalUrl ∈ st.visited then crawlLoop env query rest st
    else
      match tryInternalUrl env query internalUrl (markVisited internalUrl st) with
      | (some r, st) => (some r, st)
      | (none, st) => crawlLoop env query rest st

/-- Lines 264-340: `crawlInternalLinks(baseUrl, baseHtml, query, debug)` —
discover up to six same-domain links from the base page's markup and run
the per-link trial loop; a base URL that fails to parse raises inside the
`try`, is caught (line 335) and becomes a traced `null`. -/
def crawlInternalLinks (env : Env) (baseUrl baseHtml query : String) (st : RunState) :
    Option (AnalysisResult × String) × RunState :=
  if MAX_CRAWL_DEPTH = 0 then (none, st)
  else
    match pushStep ("Crawling internal links on " ++ baseUrl) st with
    | st =>
      match parseHost baseUrl with
      | none => (none, pushStep "Internal crawl error: Invalid URL" st)
      | some _ =>
        match internalLinksOf st.visited baseUrl baseHtml with
        | internalLinks =>
          crawlLoop env query internalLinks
            (pushStep ("Found " ++ toString internalLinks.length
              ++ " internal links to check") st)

/-- A success outcome of one run (the object literal repeated at lines
377-384, 397-404, 415-422 and 434-441): all six fields are present, the
`answer` field holding the synthesizer's nullable result. -/
structure ScrapeOutcome where
  found : Bool
  snippet : String
  score : ℚ
  source : Option String
  /-- `none` models the `answer` field being absent from the returned
  object (the failure returns at lines 349-358 and 446-453 omit it);
  `some a` models the field present with nullable value `a`. -/
  answer : Option (Option String)
deriving Repr, DecidableEq

/-- Lines 349-357 and 446-453: the failure outcome — `found: false`, empty
snippet, score `0.0`, `source: null`, and no `answer` field. -/
def notFoundOutcome : ScrapeOutcome :=
  { found := false, snippet := "", score := 0, source := none, answer := none }

/-- The success outcome constructed at lines 377-384 (and repeated at the
three other success returns): `found: true` with the accepted snippet,
score, source and the synthesizer's answer. -/
def successOutcome (analysis : AnalysisResult) (source : String)
    (aiAnswer : Option String) : ScrapeOutcome :=
  { found := true, snippet := analysis.snippet, score := analysis.score,
    source := some source, answer := some aiAnswer }

/-- Lines 365-443: the four-tier trial of one candidate URL — fast fetch
then analyze, rendered fetch then analyze, runtime inspection, then bounded
internal-link crawling over whichever markup was obtained
(`scrapedHtml || fastHtml`); the analyzer only runs on truthy markup, and
every acceptance calls the synthesizer and returns a success outcome. -/
def tryUrl (env : Env) (query url : String) (st : RunState) :
    Option ScrapeOutcome × RunState :=
  match fetchHtmlRequests env url
      (pushStep ("Processing " ++ url ++ " with multi-layer extraction") st) with
  | (fastHtml, st) =>
    match analyzeIfTruthy url query fastHtml st with
    | (some analysis, st) =>
      match generateAIAnswer env query analysis.snippet
          (pushStep ("Found relevant content via fast fetch: " ++ url) st) with
      | (aiAnswer, st) => (some (successOutcome analysis url aiAnswer), st)
    | (none, st) =>
      match fetchHtmlWithScraper env url st with
      | (scrapedHtml, st) =>
        match analyzeIfTruthy url query scrapedHtml st with
        | (some analysis, st) =>
          match generateAIAnswer env query analysis.snippet
              (pushStep ("Found relevant content via web scraper: " ++ url) st) with
          | (aiAnswer, st) => (some (successOutcome analysis url aiAnswer), st)
        | (none, st) =>
          match extractFromJsRuntime env url query st with
          | (some runtimeResult, st) =>
            match generateAIAnswer env query runtimeResult.snippet
                (pushStep ("Found relevant runtime data: " ++ url) st) with
            | (aiAnswer, st) => (some (successOutcome runtimeResult url aiAnswer), st)
          | (none, st) =>
            match jsOr scrapedHtml fastHtml with
            | some sourceHtml =>
              if sourceHtml ≠ "" ∧ 0 < MAX_CRAWL_DEPTH then
                match crawlInternalLinks env url sourceHtml query st with
                | (some (analysis, src), st) =>
                  match generateAIAnswer env query analysis.snippet
                      (pushStep ("Found relevant content via internal crawling: "
                        ++ src) st) with
                  | (aiAnswer, st) => (some (successOutcome analysis src aiAnswer), st)
                | (none, st) => (none, st)
              else (none, st)
            | none => (none, st)

/-- Lines 361-453: the candidate-URL loop — skip visited URLs, mark each
selected URL visited before its trial, return the first success, and fall
through to the not-found outcome (lines 446-453) when the candidates are
exhausted. -/
def processUrls (env : Env) (query : String) :
    List String → RunState → ScrapeOutcome × RunState
  | [], st => (notFoundOutcome, pushStep "No relevant content found in any source" st)
  | url :: rest, st =>
    if url ∈ st.visited then processUrls env query rest st
    else
      match tryUrl env query url (markVisited url st) with
      | (some outcome, st) => (outcome, st)
      | (none, st) => processUrls env query rest st

/-- Lines 342-454: `deepScrape(query, debug)` — search, record the candidate
list, short-circuit on zero candidates (lines 349-358, omitting the `answer`
field), else run the candidate loop. -/
def deepScrape (env : Env) (query : String) (st : RunState) :
    ScrapeOutcome × RunState :=
  match performSearch env (pushStep "Starting deep scrape orchestration..." st) with
  | (searchResults, st) =>
    match { st with searchResults := searchResults } with
    | st =>
      if searchResults = [] then
        (notFoundOutcome, pushStep "No search results found" st)
      else processUrls env query searchResults st

/-- The entry point of one orchestration run: a fresh `DeepScraper` (empty
visited set) and a fresh debug trace. -/
def runDeepScrape (env : Env) (query : String) : ScrapeOutcome × RunState :=
  deepScrape env query initState

/-! ## Claim C5: zero candidates short-circuit -/

/-- C5.  When the search collaborator yields zero candidate URLs, the run
returns `found=false`, empty snippet, score `0.0`, `source=null`
immediately, the trace notes the zero-result search, and the whole run's
event log is the single search call: no direct-fetch and no
render-collaborator request is ever issued. -/
theorem zero_candidates_short_circuit (env : Env) (query : String)
    (h : searchCandidates env = []) :
    (runDeepScrape env query).1.found = false ∧
      (runDeepScrape env query).1.snippet = "" ∧
      (runDeepScrape env query).1.score = 0 ∧
      (runDeepScrape env query).1.source = none ∧
      "No search results found" ∈ (runDeepScrape env query).2.steps ∧
      (runDeepScrape env query).2.events = [Event.searchCall] ∧
      ∀ u, Event.httpCall u ∉ (runDeepScrape env query).2.events ∧
        Event.renderCall u ∉ (runDeepScrape env query).2.events := by
  have hrun : runDeepScrape env query =
      (notFoundOutcome,
        pushStep "No search results found"
          { (performSearch env (pushStep "Starting deep scrape orchestration..." initState)).2
            with searchResults := [] }) := by
    unfold runDeepScrape deepScrape
    rcases hp : performSearch env (pushStep "Starting deep scrape orchestration..." initState)
      with ⟨results, st'⟩
    have hres : results = [] := by
      have h2 := performSearch_fst env (pushStep "Starting deep scrape orchestration..." initState)
      rw [hp] at h2
      simp only at h2
      rw [h2, h]
    subst hres
    simp
  rw [hrun]
  have hev : (performSearch env (pushStep "Starting deep scrape orchestration..." initState)).2.events
      = [Event.searchCall] := by
    unfold performSearch
    match env.search with
    | SearchResult.err msg => simp [pushStep, emitEvent, initState]
    | SearchResult.resp ok status items =>
      cases ok <;> simp [pushStep, emitEvent, initState]
  have hev2 : (pushStep "No search results found"
      { (performSearch env (pushStep "Starting deep scrape orchestration..." initState)).2
        with searchResults := [] }).events = [Event.searchCall] := by
    simp [pushStep]
    exact hev
  refine ⟨rfl, rfl, rfl, rfl, by simp [pushStep], hev2, ?_⟩
  intro u
  rw [hev2]
  constructor <;> simp

/-- An environment whose search collaborator answers successfully with an
empty item list and whose other collaborators are unreachable. -/
def envZero : Env where
  search := SearchResult.resp true 200 []
  http := fun _ => HttpResult.err "off"
  render := fun _ => HttpResult.err "off"
  jsonLdTexts := fun _ => []
  dataAttrVals := fun _ => []
  windowVarTexts := fun _ => []
  synth := fun _ _ => SynthResult.err "off"

/-- C5's witness input: a search that succeeds with zero items. -/
theorem zero_candidates_short_circuit_witness :
    (runDeepScrape envZero "q").1.found = false ∧
      (runDeepScrape envZero "q").1.snippet = "" ∧
      (runDeepScrape envZero "q").1.score = 0 ∧
      (runDeepScrape envZero "q").1.source = none ∧
      "No search results found" ∈ (runDeepScrape envZero "q").2.steps ∧
      (runDeepScrape envZero "q").2.events = [Event.searchCall] ∧
      ∀ u, Event.httpCall u ∉ (runDeepScrape envZero "q").2.events ∧
        Event.renderCall u ∉ (runDeepScrape envZero "q").2.events :=
  zero_candidates_short_circuit envZero "q" rfl

/-! ## Claim C3: the outcome's field set -/

theorem tryUrl_some_found (env : Env) (query url : String) (st : RunState) :
    ∀ out st', tryUrl env query url st = (some out, st') →
      out.found = true ∧ out.answer.isSome = true := by
  intro out st' h
  unfold tryUrl at h
  repeat' split at h
  all_goals try cases h
  all_goals simp_all [successOutcome]

theorem processUrls_answer_iff_found (env : Env) (query : String) :
    ∀ urls st, (processUrls env query urls st).1.answer.isSome =
      (processUrls env query urls st).1.found := by
  intro urls
  induction urls with
  | nil => intro st; simp [processUrls, notFoundOutcome]
  | cons url rest ih =>
    intro st
    unfold processUrls
    split
    · exact ih st
    · rcases ht : tryUrl env query url (markVisited url st) with ⟨out?, st'⟩
      cases out? with
      | some out =>
        have hf := tryUrl_some_found env query url (markVisited url st) out st' ht
        simp [hf.1, hf.2]
      | none => exact ih st'

/-- C3's counterexample: the zero-candidate run returns an outcome whose
`answer` field is absent (modelled `none`), refuting the claim that the
`answer` field is present on every outcome — the failure returns at lines
349-358 and 446-453 build the object without it. -/
theorem outcome_answer_missing_cex :
    (runDeepScrape envZero "q").1.answer = none := rfl

/-- C3 as amended.  Every success outcome carries all six fields — `found`,
`snippet`, `score`, `source`, `debug` and `answer` (the latter possibly
null) — but the two failure outcomes (zero candidates, all candidates
exhausted) omit the `answer` field and carry only the other five: the
`answer` field is present exactly when `found` is true. -/
theorem outcome_answer_iff_found (env : Env) (query : String) :
    (runDeepScrape env query).1.answer.isSome = (runDeepScrape env query).1.found := by
  unfold runDeepScrape deepScrape
  rcases hp : performSearch env (pushStep "Starting deep scrape orchestration..." initState)
    with ⟨results, st'⟩
  by_cases hr : results = []
  · simp [hr, notFoundOutcome]
  · simp only [if_neg hr]
    exact processUrls_answer_iff_found env query results _

/-! ## Claim C8 (counterexample): the duplicate render request -/

/-- An environment with one candidate URL whose direct fetch fails, whose
rendered fetch succeeds with markup irrelevant to the query `qq`, and whose
probe oracles find nothing. -/
def envC8 : Env where
  search := SearchResult.resp true 200 ["http://a/"]
  http := fun _ => HttpResult.err "boom"
  render := fun _ => HttpResult.resp true 200 "<p>zz</p>"
  jsonLdTexts := fun _ => []
  dataAttrVals := fun _ => []
  windowVarTexts := fun _ => []
  synth := fun _ _ => SynthResult.err "off"

theorem analyzeHtml_p_zz_qq :
    analyzeHtmlForQuery "<p>zz</p>" "http://a/" "qq" = none := by
  have hne : ¬ queryTokens "qq" = [] := by decide
  have hsc : analyzerScore "<p>zz</p>" "qq" < 1 / 10 := by
    unfold analyzerScore
    rw [show matchedTokens "<p>zz</p>" "qq" = [] from by decide,
        show queryTokens "qq" = ["qq"] from by decide]
    norm_num
  unfold analyzeHtmlForQuery
  rw [if_neg hne, if_pos hsc]

/-- C8's counterexample: with one candidate URL, a failing direct fetch and
a successful rendered fetch whose markup the analyzer rejects, the run
issues the render-collaborator request for that URL twice — once in step
(c) and once more inside embedded-state inspection (line 200) — so the
rendered markup of step (c) is not reused. -/
theorem embedded_state_refetch_cex :
    ((runDeepScrape envC8 "qq").2.events.count (Event.renderCall "http://a/")) = 2 := by
  have hph : parseHost "http://a/" = some "a" := by decide
  have hIL : internalLinksOf ["http://a/"] "http://a/" "<p>zz</p>" = [] := by decide
  have hev : (runDeepScrape envC8 "qq").2.events =
      [Event.searchCall, Event.select "http://a/", Event.httpCall "http://a/",
       Event.renderCall "http://a/", Event.analyzeCall "http://a/" "<p>zz</p>",
       Event.renderCall "http://a/"] := by
    simp [runDeepScrape, deepScrape, performSearch, processUrls, tryUrl, fetchHtmlRequests,
      fetchHtmlWithScraper, extractFromJsRuntime, crawlInternalLinks, crawlLoop, analyzeIfTruthy,
      jsonLdFind, dataAttrFind, windowVarFind, generateAIAnswer, envC8, pushStep, emitEvent,
      markVisited, initState, analyzeHtml_p_zz_qq, MAX_SEARCH_RESULTS, MAX_CRAWL_DEPTH,
      jsOr, jsTruthy, hph, hIL]
  rw [hev]
  decide

/-! ## The visited-set / event-log invariant (claims C1 and C10)

`OkE vis es` reads an event list left to right, carrying the set of URLs
selected so far on top of `vis`: every `select` is of a URL not yet
selected, every fetch/analyze action touches a URL already selected, and
every analyzer invocation carries non-empty markup. -/

/-- The URLs of the `select` events, in order. -/
def selectsOf (es : List Event) : List String :=
  es.filterMap fun e =>
    match e with
    | Event.select u => some u
    | _ => none

/-- The URL an event touches (fetches or analyzes), when any. -/
def urlTouched : Event → Option String
  | Event.httpCall u => some u
  | Event.renderCall u => some u
  | Event.analyzeCall u _ => some u
  | _ => none

/-- Well-formedness of an event list over the URLs `vis` already visited. -/
def OkE : List String → List Event → Prop
  | _, [] => True
  | vis, Event.select u :: es => u ∉ vis ∧ OkE (vis ++ [u]) es
  | vis, Event.httpCall u :: es => u ∈ vis ∧ OkE vis es
  | vis, Event.renderCall u :: es => u ∈ vis ∧ OkE vis es
  | vis, Event.analyzeCall u m :: es => u ∈ vis ∧ m ≠ "" ∧ OkE vis es
  | vis, Event.searchCall :: es => OkE vis es
  | vis, Event.synthCall :: es => OkE vis es

theorem selectsOf_append (a b : List Event) :
    selectsOf (a ++ b) = selectsOf a ++ selectsOf b := by
  simp [selectsOf, List.filterMap_append]

theorem okE_append (v : List String) (e₁ e₂ : List Event) (h₁ : OkE v e₁)
    (h₂ : OkE (v ++ selectsOf e₁) e₂) : OkE v (e₁ ++ e₂) := by
  induction e₁ generalizing v with
  | nil => simpa [selectsOf] using h₂
  | cons e es ih =>
    cases e with
    | select u =>
      obtain ⟨hn, hr⟩ := h₁
      exact ⟨hn, ih (v ++ [u]) hr (by simpa [selectsOf, List.append_assoc] using h₂)⟩
    | httpCall u =>
      exact ⟨h₁.1, ih v h₁.2 (by simpa [selectsOf] using h₂)⟩
    | renderCall u =>
      exact ⟨h₁.1, ih v h₁.2 (by simpa [selectsOf] using h₂)⟩
    | analyzeCall u m =>
      exact ⟨h₁.1, h₁.2.1, ih v h₁.2.2 (by simpa [selectsOf] using h₂)⟩
    | searchCall => exact ih v h₁ (by simpa [selectsOf] using h₂)
    | synthCall => exact ih v h₁ (by simpa [selectsOf] using h₂)

theorem okE_nodup (v : List String) (es : List Event) (hv : v.Nodup) (h : OkE v es) :
    (v ++ selectsOf es).Nodup := by
  induction es generalizing v with
  | nil => simpa [selectsOf] using hv
  | cons e es ih =>
    cases e with
    | select u =>
      obtain ⟨hn, hr⟩ := h
      have hv' : (v ++ [u]).Nodup := by
        simp [List.nodup_append, hv, hn]
      have := ih (v ++ [u]) hv' hr
      simpa [selectsOf, List.append_assoc] using this
    | httpCall u => simpa [selectsOf] using ih v hv h.2
    | renderCall u => simpa [selectsOf] using ih v hv h.2
    | analyzeCall u m => simpa [selectsOf] using ih v hv h.2.2
    | searchCall => simpa [selectsOf] using ih v hv h
    | synthCall => simpa [selectsOf] using ih v hv h

theorem okE_touched (v : List String) (es : List Event) (h : OkE v es) :
    ∀ l₁ e l₂, es = l₁ ++ e :: l₂ → ∀ u, urlTouched e = some u →
      u ∈ v ++ selectsOf l₁ := by
  induction es generalizing v with
  | nil =>
    intro l₁ e l₂ heq
    rcases l₁ with _ | ⟨x, l₁⟩ <;> simp at heq
  | cons e0 es ih =>
    intro l₁ e l₂ heq u hu
    rcases l₁ with _ | ⟨x, l₁⟩
    · simp at heq
      obtain ⟨rfl, rfl⟩ := heq
      cases e0 <;> simp [urlTouched] at hu <;> subst hu <;>
        simp [selectsOf] <;> exact h.1
    · simp at heq
      obtain ⟨rfl, hes⟩ := heq
      cases e0 with
      | select u0 =>
        obtain ⟨hn, hr⟩ := h
        have := ih (v ++ [u0]) hr l₁ e l₂ hes u hu
        simpa [selectsOf, List.append_assoc] using this
      | httpCall u0 => simpa [selectsOf] using ih v h.2 l₁ e l₂ hes u hu
      | renderCall u0 => simpa [selectsOf] using ih v h.2 l₁ e l₂ hes u hu
      | analyzeCall u0 m => simpa [selectsOf] using ih v h.2.2 l₁ e l₂ hes u hu
      | searchCall => simpa [selectsOf] using ih v h l₁ e l₂ hes u hu
      | synthCall => simpa [selectsOf] using ih v h l₁ e l₂ hes u hu

theorem okE_analyze_ne (v : List String) (es : List Event) (h : OkE v es) :
    ∀ u m, Event.analyzeCall u m ∈ es → m ≠ "" := by
  induction es generalizing v with
  | nil => intro u m hm; simp at hm
  | cons e0 es ih =>
    intro u m hm
    rcases List.mem_cons.mp hm with heq | htail
    · subst heq
      exact h.2.1
    · cases e0 with
      | select u0 => exact ih (v ++ [u0]) h.2 u m htail
      | httpCall u0 => exact ih v h.2 u m htail
      | renderCall u0 => exact ih v h.2 u m htail
      | analyzeCall u0 m0 => exact ih v h.2.2 u m htail
      | searchCall => exact ih v h u m htail
      | synthCall => exact ih v h u m htail

/-- `Steps st st'`: `st'` extends `st` by a well-formed block of events, and
the visited set grew by exactly the URLs selected in that block — in
particular nothing was ever removed from the visited set. -/
def Steps (st st' : RunState) : Prop :=
  ∃ d, st'.events = st.events ++ d ∧ st'.visited = st.visited ++ selectsOf d ∧
    OkE st.visited d

theorem steps_refl (st : RunState) : Steps st st :=
  ⟨[], by simp, by simp [selectsOf], trivial⟩

theorem steps_trans {s1 s2 s3 : RunState} (h1 : Steps s1 s2) (h2 : Steps s2 s3) :
    Steps s1 s3 := by
  obtain ⟨d1, he1, hv1, ho1⟩ := h1
  obtain ⟨d2, he2, hv2, ho2⟩ := h2
  refine ⟨d1 ++ d2, by rw [he2, he1, List.append_assoc], ?_, ?_⟩
  · rw [hv2, hv1, selectsOf_append, List.append_assoc]
  · exact okE_append _ _ _ ho1 (by rwa [← hv1])

theorem steps_mem_visited {s1 s2 : RunState} (h : Steps s1 s2) {u : String}
    (hu : u ∈ s1.visited) : u ∈ s2.visited := by
  obtain ⟨d, _, hv, _⟩ := h
  rw [hv]
  exact List.mem_append_left _ hu

theorem steps_mem_events {s1 s2 : RunState} (h : Steps s1 s2) {e : Event}
    (he : e ∈ s1.events) : e ∈ s2.events := by
  obtain ⟨d, hev, _, _⟩ := h
  rw [hev]
  exact List.mem_append_left _ he

theorem steps_push (s : String) (st : RunState) : Steps st (pushStep s st) :=
  ⟨[], by simp [pushStep], by simp [pushStep, selectsOf], trivial⟩

theorem steps_same {s1 s2 s3 : RunState} (h : Steps s1 s2)
    (he : s3.events = s2.events) (hv : s3.visited = s2.visited) : Steps s1 s3 := by
  obtain ⟨d, he2, hv2, ho⟩ := h
  exact ⟨d, by rw [he, he2], by rw [hv, hv2], ho⟩

theorem steps_emit_search (st : RunState) : Steps st (emitEvent Event.searchCall st) :=
  ⟨[Event.searchCall], by simp [emitEvent], by simp [emitEvent, selectsOf], by simp [OkE]⟩

theorem steps_emit_synth (st : RunState) : Steps st (emitEvent Event.synthCall st) :=
  ⟨[Event.synthCall], by simp [emitEvent], by simp [emitEvent, selectsOf], by simp [OkE]⟩

theorem steps_emit_http (u : String) (st : RunState) (h : u ∈ st.visited) :
    Steps st (emitEvent (Event.httpCall u) st) :=
  ⟨[Event.httpCall u], by simp [emitEvent], by simp [emitEvent, selectsOf],
    by simp [OkE, h]⟩

theorem steps_emit_render (u : String) (st : RunState) (h : u ∈ st.visited) :
    Steps st (emitEvent (Event.renderCall u) st) :=
  ⟨[Event.renderCall u], by simp [emitEvent], by simp [emitEvent, selectsOf],
    by simp [OkE, h]⟩

theorem steps_emit_analyze (u m : String) (st : RunState) (h : u ∈ st.visited)
    (hm : m ≠ "") : Steps st (emitEvent (Event.analyzeCall u m) st) :=
  ⟨[Event.analyzeCall u m], by simp [emitEvent], by simp [emitEvent, selectsOf],
    by simp [OkE, h, hm]⟩

theorem steps_mark (u : String) (st : RunState) (h : u ∉ st.visited) :
    Steps st (markVisited u st) :=
  ⟨[Event.select u], by simp [markVisited], by simp [markVisited, selectsOf],
    by simp [OkE, h]⟩

theorem steps_fetchHtmlRequests (env : Env) (url : String) (st : RunState)
    (h : url ∈ st.visited) : Steps st (fetchHtmlRequests env url st).2 := by
  unfold fetchHtmlRequests
  have s1 : Steps st (emitEvent (Event.httpCall url)
      (pushStep ("Fetching " ++ url ++ " via fast HTTP request") st)) :=
    steps_trans (steps_push _ _)
      (steps_emit_http _ _ (by simpa [pushStep] using h))
  rcases henv : env.http url with msg | ⟨ok, status, body⟩
  · exact steps_trans s1 (steps_push _ _)
  · cases ok
    · exact s1
    · exact steps_trans s1 (steps_push _ _)

theorem steps_fetchHtmlWithScraper (env : Env) (url : String) (st : RunState)
    (h : url ∈ st.visited) : Steps st (fetchHtmlWithScraper env url st).2 := by
  unfold fetchHtmlWithScraper
  have s1 : Steps st (emitEvent (Event.renderCall url)
      (pushStep ("Scraping " ++ url ++ " with web scraper (JS rendering)") st)) :=
    steps_trans (steps_push _ _)
      (steps_emit_render _ _ (by simpa [pushStep] using h))
  rcases henv : env.render url with msg | ⟨ok, status, body⟩
  · exact steps_trans s1 (steps_push _ _)
  · cases ok
    · exact steps_trans s1 (steps_push _ _)
    · exact steps_trans s1 (steps_push _ _)

theorem steps_analyzeIfTruthy (url query : String) (html? : Option String)
    (st : RunState) (h : url ∈ st.visited) :
    Steps st (analyzeIfTruthy url query html? st).2 := by
  unfold analyzeIfTruthy
  cases html? with
  | none => exact steps_refl st
  | some m =>
    by_cases hm : m = ""
    · subst hm
      exact steps_refl st
    · simp only [if_neg hm]
      exact steps_emit_analyze url m st h hm

theorem steps_generateAIAnswer (env : Env) (query context : String) (st : RunState) :
    Steps st (generateAIAnswer env query context st).2 := by
  unfold generateAIAnswer
  have s1 : Steps st (emitEvent Event.synthCall
      (pushStep "Generating AI analysis of extracted content..." st)) :=
    steps_trans (steps_push _ _) (steps_emit_synth _)
  rcases henv : env.synth query context with msg | content
  · exact steps_trans s1 (steps_push _ _)
  · rcases content with _ | a
    · exact steps_trans s1 (steps_push _ _)
    · by_cases ha : a = "" <;> simp only [if_pos, if_neg, ha] <;>
        exact steps_trans s1 (steps_push _ _)

theorem steps_extractFromJsRuntime (env : Env) (url query : String) (st : RunState)
    (h : url ∈ st.visited) : Steps st (extractFromJsRuntime env url query st).2 := by
  unfold extractFromJsRuntime
  rcases hf : fetchHtmlWithScraper env url
      (pushStep ("Inspecting runtime data for " ++ url) st) with ⟨html?, st'⟩
  have s1 : Steps st st' := by
    have hw := steps_fetchHtmlWithScraper env url
      (pushStep ("Inspecting runtime data for " ++ url) st) (by simpa [pushStep] using h)
    rw [hf] at hw
    exact steps_trans (steps_push _ _) hw
  cases html? with
  | none => exact s1
  | some html =>
    by_cases hh : html = ""
    · subst hh
      simpa using s1
    · simp only [if_neg hh]
      rcases jsonLdFind query (env.jsonLdTexts html) with _ | t
      · rcases dataAttrFind query (env.dataAttrVals html) with _ | v
        · rcases windowVarFind query (env.windowVarTexts html) with _ | t
          · exact s1
          · exact steps_trans s1 (steps_push _ _)
        · exact steps_trans s1 (steps_push _ _)
      · exact steps_trans s1 (steps_push _ _)

theorem fetchHtmlRequests_result (env : Env) (url : String) (st : RunState)
    (status : Nat) (body : String)
    (h : env.http url = HttpResult.resp true status body) :
    (fetchHtmlRequests env url st).1 = some body := by
  unfold fetchHtmlRequests
  rw [h]
  simp

/-- One internal-link trial both preserves the run invariant and — whenever
the direct fetch answers 2xx with an empty body — issues the rendered fetch
of the next strategy tier. -/
theorem steps_tryInternalUrl (env : Env) (query internalUrl : String) (st : RunState)
    (h : internalUrl ∈ st.visited) :
    Steps st (tryInternalUrl env query internalUrl st).2 ∧
      ∀ s, env.http internalUrl = HttpResult.resp true s "" →
        Event.renderCall internalUrl ∈ (tryInternalUrl env query internalUrl st).2.events := by
  unfold tryInternalUrl
  split
  next fastHtml st1 hf =>
    have s1 : Steps st st1 := by
      have hs := steps_fetchHtmlRequests env internalUrl st h
      rw [hf] at hs
      exact hs
    have h1 : internalUrl ∈ st1.visited := steps_mem_visited s1 h
    have hfast : ∀ s, env.http internalUrl = HttpResult.resp true s "" →
        fastHtml = some "" := by
      intro s hs
      have hr := fetchHtmlRequests_result env internalUrl st s "" hs
      rw [hf] at hr
      exact hr
    split
    next analysis st2 ha =>
      have t12 : Steps st1 st2 := by
        have hs := steps_analyzeIfTruthy internalUrl query fastHtml st1 h1
        rw [ha] at hs
        exact hs
      constructor
      · exact steps_trans (steps_trans s1 t12) (steps_push _ _)
      · intro s hs
        rw [hfast s hs] at ha
        simp [analyzeIfTruthy] at ha
    next st2 ha =>
      have t12 : Steps st1 st2 := by
        have hs := steps_analyzeIfTruthy internalUrl query fastHtml st1 h1
        rw [ha] at hs
        exact hs
      have s2 : Steps st st2 := steps_trans s1 t12
      have h2 : internalUrl ∈ st2.visited := steps_mem_visited s2 h
      split
      next scrHtml st3 hw =>
        have t23 : Steps st2 st3 := by
          have hs := steps_fetchHtmlWithScraper env internalUrl st2 h2
          rw [hw] at hs
          exact hs
        have s3 : Steps st st3 := steps_trans s2 t23
        have h3 : internalUrl ∈ st3.visited := steps_mem_visited s3 h
        have hrend3 : Event.renderCall internalUrl ∈ st3.events := by
          have hev := fetchHtmlWithScraper_events env internalUrl st2
          rw [hw] at hev
          rw [hev]
          simp
        split
        next analysis st4 ha2 =>
          have t34 : Steps st3 st4 := by
            have hs := steps_analyzeIfTruthy internalUrl query scrHtml st3 h3
            rw [ha2] at hs
            exact hs
          exact ⟨steps_trans (steps_trans s3 t34) (steps_push _ _),
            fun s hs => steps_mem_events (steps_push _ _) (steps_mem_events t34 hrend3)⟩
        next st4 ha2 =>
          have t34 : Steps st3 st4 := by
            have hs := steps_analyzeIfTruthy internalUrl query scrHtml st3 h3
            rw [ha2] at hs
            exact hs
          have s4 : Steps st st4 := steps_trans s3 t34
          have h4 : internalUrl ∈ st4.visited := steps_mem_visited s4 h
          have hrend4 : Event.renderCall internalUrl ∈ st4.events :=
            steps_mem_events t34 hrend3
          split
          next rt st5 he =>
            have t45 : Steps st4 st5 := by
              have hs := steps_extractFromJsRuntime env internalUrl query st4 h4
              rw [he] at hs
              exact hs
            exact ⟨steps_trans (steps_trans s4 t45) (steps_push _ _),
              fun s hs => steps_mem_events (steps_push _ _) (steps_mem_events t45 hrend4)⟩
          next st5 he =>
            have t45 : Steps st4 st5 := by
              have hs := steps_extractFromJsRuntime env internalUrl query st4 h4
              rw [he] at hs
              exact hs
            exact ⟨steps_trans s4 t45, fun s hs => steps_mem_events t45 hrend4⟩

theorem steps_crawlLoop (env : Env) (query : String) :
    ∀ links st, Steps st (crawlLoop env query links st).2 := by
  intro links
  induction links with
  | nil => intro st; exact steps_refl st
  | cons u rest ih =>
    intro st
    unfold crawlLoop
    split
    · exact ih st
    next hvis =>
      rcases ht : tryInternalUrl env query u (markVisited u st) with ⟨r, st'⟩
      have sm : Steps st (markVisited u st) := steps_mark u st hvis
      have t : Steps (markVisited u st) st' := by
        have hs := (steps_tryInternalUrl env query u (markVisited u st)
          (by simp [markVisited])).1
        rw [ht] at hs
        exact hs
      cases r with
      | some r0 => exact steps_trans sm t
      | none => exact steps_trans (steps_trans sm t) (ih st')

theorem steps_crawlInternalLinks (env : Env) (baseUrl baseHtml query : String)
    (st : RunState) : Steps st (crawlInternalLinks env baseUrl baseHtml query st).2 := by
  unfold crawlInternalLinks
  split
  · exact steps_refl st
  · rcases parseHost baseUrl with _ | d
    · exact steps_trans (steps_push _ _) (steps_push _ _)
    · exact steps_trans (steps_trans (steps_push _ _) (steps_push _ _))
        (steps_crawlLoop env query _ _)

/-- One candidate-URL trial both preserves the run invariant and — whenever
the direct fetch answers 2xx with an empty body — issues the rendered fetch
of the next strategy tier. -/
theorem steps_tryUrl (env : Env) (query url : String) (st : RunState)
    (h : url ∈ st.visited) :
    Steps st (tryUrl env query url st).2 ∧
      ∀ s, env.http url = HttpResult.resp true s "" →
        Event.renderCall url ∈ (tryUrl env query url st).2.events := by
  unfold tryUrl
  split
  next fastHtml st1 hf =>
    have s1 : Steps st st1 := by
      have hs := steps_fetchHtmlRequests env url
        (pushStep ("Processing " ++ url ++ " with multi-layer extraction") st)
        (by simpa [pushStep] using h)
      rw [hf] at hs
      exact steps_trans (steps_push _ _) hs
    have h1 : url ∈ st1.visited := steps_mem_visited s1 h
    have hfast : ∀ s, env.http url = HttpResult.resp true s "" →
        fastHtml = some "" := by
      intro s hs
      have hr := fetchHtmlRequests_result env url
        (pushStep ("Processing " ++ url ++ " with multi-layer extraction") st) s "" hs
      rw [hf] at hr
      exact hr
    split
    next analysis st2 ha =>
      have t12 : Steps st1 st2 := by
        have hs := steps_analyzeIfTruthy url query fastHtml st1 h1
        rw [ha] at hs
        exact hs
      split
      next aiAnswer st3 hg =>
        have t23 : Steps st2 st3 := by
          have hs := steps_generateAIAnswer env query analysis.snippet
            (pushStep ("Found relevant content via fast fetch: " ++ url) st2)
          rw [hg] at hs
          exact steps_trans (steps_push _ _) hs
        constructor
        · exact steps_trans (steps_trans s1 t12) t23
        · intro s hs
          rw [hfast s hs] at ha
          simp [analyzeIfTruthy] at ha
    next st2 ha =>
      have t12 : Steps st1 st2 := by
        have hs := steps_analyzeIfTruthy url query fastHtml st1 h1
        rw [ha] at hs
        exact hs
      have s2 : Steps st st2 := steps_trans s1 t12
      have h2 : url ∈ st2.visited := steps_mem_visited s2 h
      split
      next scrapedHtml st3 hw =>
        have t23 : Steps st2 st3 := by
          have hs := steps_fetchHtmlWithScraper env url st2 h2
          rw [hw] at hs
          exact hs
        have s3 : Steps st st3 := steps_trans s2 t23
        have h3 : url ∈ st3.visited := steps_mem_visited s3 h
        have hrend3 : Event.renderCall url ∈ st3.events := by
          have hev := fetchHtmlWithScraper_events env url st2
          rw [hw] at hev
          rw [hev]
          simp
        split
        next analysis st4 ha2 =>
          have t34 : Steps st3 st4 := by
            have hs := steps_analyzeIfTruthy url query scrapedHtml st3 h3
            rw [ha2] at hs
            exact hs
          split
          next aiAnswer st5 hg =>
            have t45 : Steps st4 st5 := by
              have hs := steps_generateAIAnswer env query analysis.snippet
                (pushStep ("Found relevant content via web scraper: " ++ url) st4)
              rw [hg] at hs
              exact steps_trans (steps_push _ _) hs
            exact ⟨steps_trans (steps_trans s3 t34) t45,
              fun s hs => steps_mem_events t45 (steps_mem_events t34 hrend3)⟩
        next st4 ha2 =>
          have t34 : Steps st3 st4 := by
            have hs := steps_analyzeIfTruthy url query scrapedHtml st3 h3
            rw [ha2] at hs
            exact hs
          have s4 : Steps st st4 := steps_trans s3 t34
          have h4 : url ∈ st4.visited := steps_mem_visited s4 h
          have hrend4 : Event.renderCall url ∈ st4.events := steps_mem_events t34 hrend3
          split
          next runtimeResult st5 he =>
            have t45 : Steps st4 st5 := by
              have hs := steps_extractFromJsRuntime env url query st4 h4
              rw [he] at hs
              exact hs
            split
            next aiAnswer st6 hg =>
              have t56 : Steps st5 st6 := by
                have hs := steps_generateAIAnswer env query runtimeResult.snippet
                  (pushStep ("Found relevant runtime data: " ++ url) st5)
                rw [hg] at hs
                exact steps_trans (steps_push _ _) hs
              exact ⟨steps_trans (steps_trans s4 t45) t56,
                fun s hs => steps_mem_events t56 (steps_mem_events t45 hrend4)⟩
          next st5 he =>
            have t45 : Steps st4 st5 := by
              have hs := steps_extractFromJsRuntime env url query st4 h4
              rw [he] at hs
              exact hs
            have s5 : Steps st st5 := steps_trans s4 t45
            have hrend5 : Event.renderCall url ∈ st5.events := steps_mem_events t45 hrend4
            split
            next sourceHtml hj =>
              split
              next hcond =>
                split
                next analysis src st6 hc =>
                  have t56 : Steps st5 st6 := by
                    have hs := steps_crawlInternalLinks env url sourceHtml query st5
                    rw [hc] at hs
                    exact hs
                  split
                  next aiAnswer st7 hg =>
                    have t67 : Steps st6 st7 := by
                      have hs := steps_generateAIAnswer env query analysis.snippet
                        (pushStep ("Found relevant content via internal crawling: "
                          ++ src) st6)
                      rw [hg] at hs
                      exact steps_trans (steps_push _ _) hs
                    exact ⟨steps_trans (steps_trans s5 t56) t67,
                      fun s hs => steps_mem_events t67 (steps_mem_events t56 hrend5)⟩
                next st6 hc =>
                  have t56 : Steps st5 st6 := by
                    have hs := steps_crawlInternalLinks env url sourceHtml query st5
                    rw [hc] at hs
                    exact hs
                  exact ⟨steps_trans s5 t56,
                    fun s hs => steps_mem_events t56 hrend5⟩
              next hcond => exact ⟨s5, fun s hs => hrend5⟩
            next hj => exact ⟨s5, fun s hs => hrend5⟩

theorem steps_performSearch (env : Env) (st : RunState) :
    Steps st (performSearch env st).2 := by
  unfold performSearch
  have s1 : Steps st (emitEvent Event.searchCall
      (pushStep "Searching Google for relevant URLs..." st)) :=
    steps_trans (steps_push _ _) (steps_emit_search _)
  rcases env.search with msg | ⟨ok, status, items⟩
  · exact steps_trans s1 (steps_push _ _)
  · cases ok
    · exact steps_trans s1 (steps_push _ _)
    · exact steps_trans s1 (steps_push _ _)

theorem steps_processUrls (env : Env) (query : String) :
    ∀ urls st, Steps st (processUrls env query urls st).2 := by
  intro urls
  induction urls with
  | nil => intro st; exact steps_push _ _
  | cons url rest ih =>
    intro st
    unfold processUrls
    split
    · exact ih st
    next hvis =>
      rcases ht : tryUrl env query url (markVisited url st) with ⟨out?, st'⟩
      have sm : Steps st (markVisited url st) := steps_mark url st hvis
      have t : Steps (markVisited url st) st' := by
        have hs := (steps_tryUrl env query url (markVisited url st)
          (by simp [markVisited])).1
        rw [ht] at hs
        exact hs
      cases out? with
      | some out => exact steps_trans sm t
      | none => exact steps_trans (steps_trans sm t) (ih st')

theorem steps_deepScrape (env : Env) (query : String) (st : RunState) :
    Steps st (deepScrape env query st).2 := by
  unfold deepScrape
  split
  next results st1 hp =>
    have s1 : Steps st st1 := by
      have hs := steps_performSearch env (pushStep "Starting deep scrape orchestration..." st)
      rw [hp] at hs
      exact steps_trans (steps_push _ _) hs
    have s1' : Steps st { st1 with searchResults := results } :=
      steps_same s1 rfl rfl
    by_cases hr : results = []
    · simp only [if_pos hr]
      exact steps_trans s1' (steps_push _ _)
    · simp only [if_neg hr]
      exact steps_trans s1' (steps_processUrls env query results _)

/-! ## Claim C1: the VisitedSet invariant -/

/-- C1.  In any orchestration run: (i) no URL is ever selected for trial
twice — the `select` events (the `visited.add` calls at lines 363 and 305)
are pairwise distinct; (ii) the visited set at the end of the run is
exactly the list of selected URLs in selection order — entries are added
at the moment of selection and never removed; (iii) every fetch or
analyzer event for a URL, top-level or internally discovered, is preceded
in the event log by that URL's selection, so the URL was in the VisitedSet
before any fetch for it started. -/
theorem visitedset_once_per_run (env : Env) (query : String) :
    (selectsOf (runDeepScrape env query).2.events).Nodup ∧
      (runDeepScrape env query).2.visited = selectsOf (runDeepScrape env query).2.events ∧
      ∀ l₁ e l₂, (runDeepScrape env query).2.events = l₁ ++ e :: l₂ →
        ∀ u, urlTouched e = some u → u ∈ selectsOf l₁ := by
  obtain ⟨d, he, hv, ho⟩ := steps_deepScrape env query initState
  simp only [initState, List.nil_append] at he hv
  have he' : (runDeepScrape env query).2.events = d := he
  have hv' : (runDeepScrape env query).2.visited = selectsOf d := hv
  refine ⟨?_, ?_, ?_⟩
  · rw [he']
    simpa using okE_nodup [] d (by simp) ho
  · rw [he', hv']
  · intro l₁ e l₂ heq u hu
    rw [he'] at heq
    simpa using okE_touched [] d ho l₁ e l₂ heq u hu

/-! ## Claim C10: empty-body fetches are strategy failures -/

/-- C10.  A 2xx response with an empty body is treated as strategy
failure: (i) in any run, every Relevance Analyzer invocation carries
non-empty markup — falsy markup (null or empty) never reaches the analyzer,
even for zero-token queries that the analyzer would accept; (ii) whenever a
candidate URL's direct fetch answers 2xx with an empty body, its trial
still issues the rendered fetch of the next tier; (iii) likewise for the
trial of an internally discovered link. -/
theorem empty_body_strategy_failure (env : Env) (query : String) :
    (∀ u m, Event.analyzeCall u m ∈ (runDeepScrape env query).2.events → m ≠ "") ∧
      (∀ url st s, url ∈ st.visited → env.http url = HttpResult.resp true s "" →
        Event.renderCall url ∈ (tryUrl env query url st).2.events) ∧
      (∀ url st s, url ∈ st.visited → env.http url = HttpResult.resp true s "" →
        Event.renderCall url ∈ (tryInternalUrl env query url st).2.events) := by
  refine ⟨?_, ?_, ?_⟩
  · obtain ⟨d, he, hv, ho⟩ := steps_deepScrape env query initState
    simp only [initState, List.nil_append] at he
    have he' : (runDeepScrape env query).2.events = d := he
    intro u m hm
    rw [he'] at hm
    exact okE_analyze_ne [] d ho u m hm
  · intro url st s hvis hhttp
    exact (steps_tryUrl env query url st hvis).2 s hhttp
  · intro url st s hvis hhttp
    exact (steps_tryInternalUrl env query url st hvis).2 s hhttp
